import Mathlib

/-!
Verification of the drag-and-drop grid engine of the `angular-dnd-grid`
repository against its natural-language specification.

The shallow embedding below follows the TypeScript sources:

* `DropGridRef` (the full implementation): `enter`, `exit`/`_reset`,
  `_sortItem`, `_canReceive`, `_getItemIndexFromPointerPosition`,
  `_isPointerNearDropContainer`, `_getItemOffsetPx`, `_getSiblingOffsetPx`,
  `_cacheItemPositions`, `getItemIndex`, `start`, `dispose`.
* `DropGridRef` (the stub variant in `containers/drop-grid-ref.ts`, whose
  `dispose` has an empty body).
* `ResizeRegistry`: `registerDropContainer`, `startResizing`,
  `stopResizing`, `removeResizeItem`, `_clearGlobalListeners`.
* `CdkDropGrid`: the `sortingDisabled` input default and `_syncInputs`.

Modelling conventions:

* Pixel coordinates are rationals (`ℚ`); JavaScript `Math.floor` is `Rat.floor`.
* Array indices are integers (`Int`), since the JavaScript code works with
  `-1` sentinels (`indexOf`, `findIndex`).
* A `DragRef` is identified by a natural number; DOM measurement
  (`getBoundingClientRect` via `getMutableClientRect`), the drag-drop
  registry's `isDragging`, and `document.elementFromPoint` live in an
  explicit environment record.
* rxjs `Subject`s are modelled by the list of emitted events plus, for
  disposal, a `completed` flag per subject.
* JavaScript field accesses on `undefined` (an uninitialized class field or
  an out-of-range array element) are modelled with `Option` and `Except`:
  a method that can throw a `TypeError` returns `Except String _`.
* Purely visual side effects (placeholder DOM insertion, `style.transform`
  writes, scroll listeners, sibling highlight toggling) carry no state that
  the claims mention and are left out; the structured state (item lists,
  position cache, flags, previous-swap memory) is embedded in full.
* The JavaScript `===` comparison between cached-position objects in
  `_sortItem`'s final loop is reference equality; cache entries are created
  one per drag item, so it is embedded as value equality of the entry.
-/

namespace DndGrid

/-- Client rectangle, after `getMutableClientRect`:
`{top, right, bottom, left, width, height}`. -/
structure Rect where
  top : ℚ
  right : ℚ
  bottom : ℚ
  left : ℚ
  width : ℚ
  height : ℚ
deriving DecidableEq, Repr

/-- A pixel offset `{x, y}`. -/
structure Pt where
  x : ℚ
  y : ℚ
deriving DecidableEq, Repr

/-- Entry in the position cache for draggable items
(`CachedGridItemPosition`): drag item, its dimensions, and the amount by
which it has been moved since dragging started. -/
structure CachedGridItemPosition where
  drag : Nat
  clientRect : Rect
  offset : Pt
deriving DecidableEq, Repr

/-- Modelled from the spec: geometry utility `isInsideClientRect` of
`drop-container-ref.ts` (not under `src/`) — the bounding-rectangle
containment test (`y >= top && y <= bottom && x >= left && x <= right`). -/
def isInsideClientRect (clientRect : Rect) (x y : ℚ) : Bool :=
  y ≥ clientRect.top && y ≤ clientRect.bottom &&
    x ≥ clientRect.left && x ≤ clientRect.right

/-- Modelled from the spec: geometry utility `adjustClientRect` of
`drop-container-ref.ts` (not under `src/`) — translates a client rectangle
by a `top` and a `left` amount. -/
def adjustClientRect (clientRect : Rect) (top left : ℚ) : Rect :=
  { clientRect with
      top := clientRect.top + top
      bottom := clientRect.bottom + top
      left := clientRect.left + left
      right := clientRect.right + left }

/-- Modelled from the spec: proximity threshold `DROP_PROXIMITY_THRESHOLD`
of `drop-container-ref.ts` (not under `src/`) — the proximity band is 5% of
the container size. -/
def DROP_PROXIMITY_THRESHOLD : ℚ := 5 / 100

/-- Auxiliary loop of `findIndex`, carrying the running index and the whole
array (the JavaScript callback receives `(element, index, array)`). -/
def findIndexFrom {α : Type} (p : α → Nat → List α → Bool) (full : List α) :
    List α → Nat → Int
  | [], _ => -1
  | a :: rest, i => if p a i full then (i : Int) else findIndexFrom p full rest (i + 1)

/-- Modelled from the spec: `findIndex` of `drop-container-ref.ts` (not
under `src/`) — index of the first element satisfying the predicate, `-1`
when none does. -/
def findIndex {α : Type} (l : List α) (p : α → Nat → List α → Bool) : Int :=
  findIndexFrom p l l 0

/-- JavaScript `Array.prototype.indexOf`: first index holding the value,
`-1` when absent. -/
def indexOfInt (l : List Nat) (a : Nat) : Int :=
  findIndex l (fun b _ _ => b == a)

/-- JavaScript indexing `array[i]`: `undefined` (here `none`) for a
negative or out-of-range index. -/
def jsGet {α : Type} (l : List α) (i : Int) : Option α :=
  if i < 0 then none else l.get? i.toNat

/-- JavaScript `array.splice(start, 0, item)`: the start index is clamped
into `[0, length]` (negative values count from the end) and the item is
inserted there. -/
def jsSpliceInsert {α : Type} (l : List α) (i : Int) (a : α) : List α :=
  let n : Int := if i < 0 then max ((l.length : Int) + i) 0 else min i (l.length : Int)
  l.insertIdx n.toNat a

/-- JavaScript `array.splice(start, 1)` for a start index already known to
be in `[0, length)`. -/
def jsSpliceRemove {α : Type} (l : List α) (i : Int) : List α :=
  l.eraseIdx i.toNat

/-- Modelled from the spec: `moveItemInArray` of `drag-utils.ts` (not under
`src/`) — "splices the order in place": both indices are clamped into
`[0, length-1]`, the item at `from` is removed and re-inserted at `to`. -/
def moveItemInArray {α : Type} (l : List α) (fromIndex toIndex : Int) : List α :=
  let clamp : Int → Int := fun v => max 0 (min ((l.length : Int) - 1) v)
  let fr := clamp fromIndex
  let to_ := clamp toIndex
  if fr = to_ then l
  else
    match jsGet l fr with
    | none => l
    | some a => (l.eraseIdx fr.toNat).insertIdx to_.toNat a

/-- State of a `DropGridRef` (full implementation, `part_001`).  Fields that
the TypeScript class leaves without an initializer (`_activeDraggables`)
are `Option`s, `none` meaning `undefined`. -/
structure GridState where
  /-- Identity of the container, carried on emitted events. -/
  containerId : Nat := 0
  /-- `disabled` — default `false`. -/
  disabled : Bool := false
  /-- `sortingDisabled` — default `true`. -/
  sortingDisabled : Bool := true
  /-- `autoScrollDisabled` — default `false`. -/
  autoScrollDisabled : Bool := false
  /-- `_isDragging` — default `false`. -/
  isDragging : Bool := false
  /-- `_draggables` — the declared member items (set via `withItems`). -/
  draggables : List Nat := []
  /-- `_activeDraggables` — uninitialized until `start`/`_reset` runs. -/
  activeDraggables : Option (List Nat) := none
  /-- `_itemPositions` — the position cache, default `[]`. -/
  itemPositions : List CachedGridItemPosition := []
  /-- `_previousSwap.drag` — default `null`. -/
  previousSwapDrag : Option Nat := none
  /-- `_previousSwap.delta` — default `{x: 0, y: 0}`. -/
  previousSwapDelta : Pt := ⟨0, 0⟩
  /-- `_clientRect` — cached own bounding rectangle (set by
  `_cacheOwnPosition`). -/
  clientRect : Rect := ⟨0, 0, 0, 0, 0, 0⟩
  /-- `_direction === 'rtl'` — default `ltr`, i.e. `false`. -/
  rtl : Bool := false
deriving DecidableEq, Repr

/-- Environment of a gesture: DOM measurement, the drag-drop registry, the
document hit test, and the container's configuration closures. -/
structure GridEnv where
  /-- `getMutableClientRect(drag.getRootElement())`. -/
  measureRoot : Nat → Rect
  /-- `getMutableClientRect(drag.getPlaceholderElement())`. -/
  measurePlaceholder : Nat → Rect
  /-- `DragDropRegistry.isDragging(drag)`. -/
  isDraggingReg : Nat → Bool
  /-- `getMutableClientRect` of the container's own element. -/
  ownRect : Rect
  /-- `document.elementFromPoint(x, y)` — `none` models `null`. -/
  elementFromPoint : ℚ → ℚ → Option Nat
  /-- The container's native element. -/
  containerElement : Nat
  /-- `nativeElement.contains(e)` — DOM descendant test. -/
  containsDesc : Nat → Nat → Bool
  /-- `enterPredicate(drag, this)` with `this` fixed to this container. -/
  enterPredicate : Nat → Bool

/-- Events the container emits on its subjects;
each carries the emitting container. -/
inductive GridEvent where
  | beforeStarted (container : Nat)
  | entered (container : Nat) (item : Nat) (currentIndex : Int)
  | exited (container : Nat) (item : Nat)
  | sortedEvent (container : Nat) (previousIndex currentIndex : Rect) (item : Nat)
deriving DecidableEq, Repr

/-- Source `_cacheItemPositions`: measure every active draggable (the placeholder
when the registry reports it as dragged, its root element otherwise) and
sort the cache ascending by `left`, ties broken by `top` (the JavaScript
comparator `a.left === b.left ? a.top - b.top : a.left - b.left`). -/
def cacheItemPositions (env : GridEnv) (active : List Nat) :
    List CachedGridItemPosition :=
  (active.map fun drag =>
      let rect := if env.isDraggingReg drag then env.measurePlaceholder drag
                  else env.measureRoot drag
      ({ drag := drag, clientRect := rect, offset := ⟨0, 0⟩ } :
        CachedGridItemPosition)).mergeSort
    (fun a b =>
      if a.clientRect.left = b.clientRect.left then
        a.clientRect.top ≤ b.clientRect.top
      else a.clientRect.left ≤ b.clientRect.left)

/-- Source `start()`: emits `beforeStarted`, sets `_isDragging` and runs
`_cacheItems` (copy `_draggables` into `_activeDraggables`, re-cache item
positions and the own rectangle).  Sibling notification and the scroll
listeners have no embedded state. -/
def start (env : GridEnv) (s : GridState) : GridState × List GridEvent :=
  ({ s with
      isDragging := true
      activeDraggables := some s.draggables
      itemPositions := cacheItemPositions env s.draggables
      clientRect := env.ownRect },
    [GridEvent.beforeStarted s.containerId])

/-- The callback `_getItemIndexFromPointerPosition` passes to `findIndex`:
accept the dragged item itself only in a singleton cache; skip, when a
pointer delta is given, the entry recorded by the previous swap with the
same delta; otherwise test floored bounding-rectangle containment of the
pointer. -/
def pointerHitPredicate (s : GridState) (item : Nat) (pointerX pointerY : ℚ)
    (delta : Option Pt) :
    CachedGridItemPosition → Nat → List CachedGridItemPosition → Bool :=
  fun p _ array =>
    if p.drag == item then decide (array.length < 2)
    else
      let sameSwap := match delta with
        | some d => (some p.drag == s.previousSwapDrag) && (d == s.previousSwapDelta)
        | none => false
      if sameSwap then false
      else
        decide (pointerX ≥ (⌊p.clientRect.left⌋ : ℚ) ∧ pointerX ≤ (⌊p.clientRect.right⌋ : ℚ) ∧
          pointerY ≥ (⌊p.clientRect.top⌋ : ℚ) ∧ pointerY ≤ (⌊p.clientRect.bottom⌋ : ℚ))

/-- Source `_getItemIndexFromPointerPosition`: index of the first cache entry the
pointer predicate accepts, `-1` when none does. -/
def getItemIndexFromPointerPosition (s : GridState) (item : Nat) (pointerX pointerY : ℚ)
    (delta : Option Pt) : Int :=
  findIndex s.itemPositions (pointerHitPredicate s item pointerX pointerY delta)

/-- The insertion index `enter` computes: the item's index in `_draggables`
when sorting is disabled, otherwise (or when that lookup misses) the index
derived from the pointer position. -/
def enterNewIndex (s : GridState) (item : Nat) (pointerX pointerY : ℚ) : Int :=
  let n0 : Int := if s.sortingDisabled then indexOfInt s.draggables item else -1
  if n0 = -1 then getItemIndexFromPointerPosition s item pointerX pointerY none else n0

/-- The splice step of `enter`: determine the reference item at the
computed index (or the next one, when the index points at the entering
item itself), drop a pre-existing occurrence of the item, and splice the
item before the reference when the reference is not itself being dragged —
appending at the end otherwise. -/
def enterActive (env : GridEnv) (active : List Nat) (item : Nat) (newIndex : Int) :
    List Nat :=
  let currentIndex := indexOfInt active item
  let npr0 : Option Nat := jsGet active newIndex
  let newPositionReference : Option Nat :=
    if npr0 = some item then jsGet active (newIndex + 1) else npr0
  let active1 := if currentIndex > -1 then jsSpliceRemove active currentIndex else active
  match newPositionReference with
  | some ref =>
      if !env.isDraggingReg ref then jsSpliceInsert active1 newIndex item
      else active1 ++ [item]
  | none => active1 ++ [item]

/-- Source `getItemIndex(item)`: index in `_draggables` outside a gesture, index
in the geometry-sorted cache (reversed for RTL) during one. -/
def getItemIndex (s : GridState) (item : Nat) : Int :=
  if !s.isDragging then indexOfInt s.draggables item
  else
    let items := if s.rtl then s.itemPositions.reverse else s.itemPositions
    findIndex items (fun p _ _ => p.drag == item)

/-- Source `enter(item, pointerX, pointerY)`: runs `start`, computes the insertion
index, splices the item into `_activeDraggables`, re-caches the positions
and emits `entered` with the item's resulting index (`getItemIndex`). -/
def enter (env : GridEnv) (s : GridState) (item : Nat) (pointerX pointerY : ℚ) :
    GridState × List GridEvent :=
  let started := start env s
  let s1 := started.1
  let newIndex := enterNewIndex s1 item pointerX pointerY
  let active2 := enterActive env (s1.activeDraggables.getD []) item newIndex
  let s2 := { s1 with
      activeDraggables := some active2
      itemPositions := cacheItemPositions env active2 }
  (s2, started.2 ++ [GridEvent.entered s.containerId item (getItemIndex s2 item)])

/-- Source `_reset()`: clears the gesture state.  Reading `_activeDraggables`
before any gesture initialised it dereferences `undefined` and throws. -/
def reset (s : GridState) : Except String GridState :=
  match s.activeDraggables with
  | none => Except.error "TypeError: this._activeDraggables is undefined"
  | some _ =>
      Except.ok { s with
        isDragging := false
        activeDraggables := some []
        itemPositions := []
        previousSwapDrag := none
        previousSwapDelta := ⟨0, 0⟩ }

/-- Source `exit(item)`: `_reset`, then emit `exited`. -/
def exit (s : GridState) (item : Nat) : Except String (GridState × List GridEvent) :=
  (reset s).map fun s' => (s', [GridEvent.exited s.containerId item])

/-- Source `_isPointerNearDropContainer`: pointer within the container rectangle
extended by 5% of its width/height on each side. -/
def isPointerNearDropContainer (s : GridState) (pointerX pointerY : ℚ) : Bool :=
  let xThreshold := s.clientRect.width * DROP_PROXIMITY_THRESHOLD
  let yThreshold := s.clientRect.height * DROP_PROXIMITY_THRESHOLD
  pointerY > s.clientRect.top - yThreshold && pointerY < s.clientRect.bottom + yThreshold &&
    pointerX > s.clientRect.left - xThreshold && pointerX < s.clientRect.right + xThreshold

/-- Source `_getItemOffsetPx`: offset for the dragged item's placeholder;
size difference added when moving towards smaller indices. -/
def getItemOffsetPx (currentPosition newPosition : Rect) (delta : Int) : Pt :=
  let base : Pt := ⟨newPosition.left - currentPosition.left,
    newPosition.top - currentPosition.top⟩
  if delta = -1 then
    ⟨base.x + (newPosition.width - currentPosition.width),
      base.y + (newPosition.height - currentPosition.height)⟩
  else base

/-- Source `_getSiblingOffsetPx`: offset for items that are not dragged,
accounting for the gap to the immediate sibling in the movement
direction. -/
def getSiblingOffsetPx (currentIndex : Int) (siblings : List CachedGridItemPosition)
    (delta : Int) : Pt :=
  match jsGet siblings currentIndex with
  | none => ⟨0, 0⟩
  | some currentEntry =>
      let currentPosition := currentEntry.clientRect
      let immediateSibling := jsGet siblings (currentIndex + delta * (-1))
      let base : Pt := ⟨currentPosition.left, currentPosition.top⟩
      match immediateSibling with
      | none => base
      | some sib =>
          if delta = -1 then
            ⟨base.x - (sib.clientRect.left - currentPosition.right),
              base.y - (sib.clientRect.top - currentPosition.bottom)⟩
          else
            ⟨base.x + (currentPosition.left - sib.clientRect.right),
              base.y + (currentPosition.top - sib.clientRect.bottom)⟩

/-- The final loop of `_sortItem`: walk the shuffled cache, leave entries
whose position did not change untouched, and offset the moved ones (the
dragged item by the item offset, the rest by the sibling offset),
translating their cached rectangles accordingly. -/
def sortedCachePositions (item : Nat) (oldOrder movedSiblings : List CachedGridItemPosition)
    (itemOffset siblingOffset : Pt) : List CachedGridItemPosition :=
  movedSiblings.mapIdx fun i sib =>
    if oldOrder.get? i = some sib then sib
    else
      let offset := if sib.drag == item then itemOffset else siblingOffset
      { sib with
          offset := ⟨sib.offset.x + offset.x, sib.offset.y + offset.y⟩
          clientRect := adjustClientRect sib.clientRect offset.y offset.x }

/-- Source `_sortItem(item, pointerX, pointerY, pointerDelta)`: no-op when sorting
is disabled or the pointer is outside the proximity band; early return when
the pointer hits no entry of a non-empty cache; otherwise records the swap,
emits one `sorted` event (its `previousIndex` field carrying the rect at
the new index and its `currentIndex` field the rect at the item's current
index), moves the entry and offsets the entries whose position changed.
Out-of-range cache accesses (`siblings[-1].clientRect`) throw. -/
def sortItem (s : GridState) (item : Nat) (pointerX pointerY : ℚ) (pointerDelta : Pt) :
    Except String (GridState × List GridEvent) :=
  if s.sortingDisabled || !isPointerNearDropContainer s pointerX pointerY then
    Except.ok (s, [])
  else
    let siblings := s.itemPositions
    let newIndex := getItemIndexFromPointerPosition s item pointerX pointerY (some pointerDelta)
    if newIndex = -1 ∧ siblings.length > 0 then Except.ok (s, [])
    else
      let currentIndex := findIndex siblings (fun p _ _ => p.drag == item)
      match jsGet siblings currentIndex, jsGet siblings newIndex with
      | some currentEntry, some siblingAtNewPosition =>
          let currentPosition := currentEntry.clientRect
          let newPosition := siblingAtNewPosition.clientRect
          let delta : Int := if currentIndex > newIndex then 1 else -1
          let itemOffset := getItemOffsetPx currentPosition newPosition delta
          let siblingOffset := getSiblingOffsetPx currentIndex siblings delta
          let oldOrder := siblings
          let movedSiblings := moveItemInArray siblings currentIndex newIndex
          let finalSiblings :=
            sortedCachePositions item oldOrder movedSiblings itemOffset siblingOffset
          Except.ok
            ({ s with
                previousSwapDrag := some siblingAtNewPosition.drag
                previousSwapDelta := pointerDelta
                itemPositions := finalSiblings },
              [GridEvent.sortedEvent s.containerId newPosition currentPosition item])
      | _, _ => Except.error "TypeError: cannot read clientRect of undefined"

/-- Source `_canReceive(item, x, y)`: enter-predicate, geometric containment, and
the document hit test resolving to the container or a descendant. -/
def canReceive (env : GridEnv) (s : GridState) (item : Nat) (x y : ℚ) : Bool :=
  if !env.enterPredicate item || !isInsideClientRect s.clientRect x y then false
  else
    match env.elementFromPoint x y with
    | none => false
    | some elementFromPoint =>
        elementFromPoint == env.containerElement ||
          env.containsDesc env.containerElement elementFromPoint

/-- Disposal-relevant state of a drop grid container: the completion flag
of each notification subject and whether the container is still in the
registry's `_dropInstances` set. -/
structure DisposeState where
  beforeStartedCompleted : Bool := false
  enteredCompleted : Bool := false
  exitedCompleted : Bool := false
  droppedCompleted : Bool := false
  sortedCompleted : Bool := false
  stopScrollTimersCompleted : Bool := false
  /-- The constructor registers the container, so a live instance starts
  registered. -/
  registered : Bool := true
deriving DecidableEq, Repr

/-- Source `dispose()` of the full `DropGridRef` (`part_001`): completes
`_stopScrollTimers` and the five notification subjects, and removes the
container from the registry (`removeDropContainer`).  Listener removal and
the `_activeSiblings.clear()` / `_scrollNode` writes carry no embedded
state. -/
def disposeFull (s : DisposeState) : DisposeState :=
  { s with
      stopScrollTimersCompleted := true
      beforeStartedCompleted := true
      enteredCompleted := true
      exitedCompleted := true
      droppedCompleted := true
      sortedCompleted := true
      registered := false }

/-- Source `dispose()` of the stub `DropGridRef` in
`containers/drop-grid-ref.ts`: its body is empty, so the state is
untouched. -/
def disposeStub (s : DisposeState) : DisposeState := s

/-- State of the `ResizeRegistry`: the three instance sets and the keys of
the `_globalListeners` map (the claims only concern which listeners are
bound, not their handlers).  JavaScript `Set` insertion order is embedded
by consing fresh elements. -/
structure RegistryState where
  dropInstances : List Nat := []
  resizeInstances : List Nat := []
  activeResizeInstances : List Nat := []
  globalListeners : List String := []
deriving DecidableEq, Repr

/-- JavaScript `Map.prototype.set` restricted to keys: keep the key's slot
if present, append it otherwise. -/
def mapSetKey (m : List String) (k : String) : List String :=
  if k ∈ m then m else m ++ [k]

/-- Source `registerDropContainer(drop)`: adds an unregistered container, throws
on a duplicate registration. -/
def registerDropContainer (s : RegistryState) (drop : Nat) :
    Except String RegistryState :=
  if drop ∉ s.dropInstances then
    Except.ok { s with dropInstances := drop :: s.dropInstances }
  else Except.error "Drop instance with has already been registered."

/-- Source `startResizing(resize, event)`: ignores an already-active instance;
otherwise marks it active and, when it is the only active one, binds the
four document-level listeners (`touchmove`/`mousemove`,
`touchend`/`mouseup`, `scroll`, `selectstart`). -/
def startResizing (s : RegistryState) (resize : Nat) (isTouchEvent : Bool) :
    RegistryState :=
  if resize ∈ s.activeResizeInstances then s
  else
    let active := resize :: s.activeResizeInstances
    let s1 := { s with activeResizeInstances := active }
    if active.length = 1 then
      let moveEvent := if isTouchEvent then "touchmove" else "mousemove"
      let upEvent := if isTouchEvent then "touchend" else "mouseup"
      { s1 with
          globalListeners :=
            mapSetKey (mapSetKey (mapSetKey (mapSetKey s.globalListeners
              moveEvent) upEvent) "scroll") "selectstart" }
    else s1

/-- Source `stopResizing(resize)`: removes the instance from the active set and,
when no active instance remains, clears the global listeners. -/
def stopResizing (s : RegistryState) (resize : Nat) : RegistryState :=
  let active := s.activeResizeInstances.erase resize
  let s1 := { s with activeResizeInstances := active }
  if active.length = 0 then { s1 with globalListeners := [] } else s1

/-- Source `removeResizeItem(resize)`: drops the instance from the registry and
stops any resize it was performing (the permanently-bound `touchmove`
prevent-default listener is not one of the four gesture listeners the
claims concern). -/
def removeResizeItem (s : RegistryState) (resize : Nat) : RegistryState :=
  stopResizing { s with resizeInstances := s.resizeInstances.erase resize } resize

/-- One registry call of the gesture-listener life cycle. -/
inductive RegOp where
  | startR (resize : Nat) (isTouchEvent : Bool)
  | stopR (resize : Nat)
  | removeR (resize : Nat)
deriving DecidableEq, Repr

/-- Apply one registry call. -/
def regStep (s : RegistryState) : RegOp → RegistryState
  | RegOp.startR r touch => startResizing s r touch
  | RegOp.stopR r => stopResizing s r
  | RegOp.removeR r => removeResizeItem s r

/-- Run a sequence of registry calls from the registry's initial state. -/
def regRun (ops : List RegOp) : RegistryState :=
  ops.foldl regStep {}

/-- Relevant state of the `CdkDropGrid` directive: its
`sortingDisabled` / `disabled` / `autoScrollDisabled` input backing
fields, with their declared defaults. -/
structure CdkDropGridState where
  sortingDisabledInput : Bool := false
  disabledInput : Bool := false
  autoScrollDisabledInput : Bool := false
deriving DecidableEq, Repr

/-- The `ref.beforeStarted` handler installed by `_syncInputs`: at the
start of each gesture it overwrites the ref's flags with the directive's
current input values (sibling wiring and `lockAxis` carry no embedded
state). -/
def syncInputsOnBeforeStarted (g : CdkDropGridState) (ref : GridState) : GridState :=
  { ref with
      disabled := g.disabledInput
      sortingDisabled := g.sortingDisabledInput
      autoScrollDisabled := g.autoScrollDisabledInput }

/-- The active working list, `undefined` read as `[]` (callers below only
use it on states whose `_activeDraggables` has been initialised). -/
def activeOf (s : GridState) : List Nat := s.activeDraggables.getD []

/-- Scenario data: three 10×10 items `a = 0`, `b = 1`, `c = 2` laid out in
one row. -/
def rectA : Rect := ⟨0, 10, 10, 0, 10, 10⟩

/-- Bounding rectangle of item `b = 1`, occupying `x ∈ [10, 20]`. -/
def rectB : Rect := ⟨0, 20, 10, 10, 10, 10⟩

/-- Bounding rectangle of item `c = 2`, occupying `x ∈ [20, 30]`. -/
def rectC : Rect := ⟨0, 30, 10, 20, 10, 10⟩

/-- Bounding rectangle of the container holding the row `[a, b, c]`. -/
def rectContainer : Rect := ⟨0, 30, 10, 0, 30, 10⟩

/-- A container mid-gesture over the row `[a, b, c]`, sorting enabled,
positions cached in geometric order. -/
def gridABC : GridState :=
  { sortingDisabled := false
    isDragging := true
    draggables := [0, 1, 2]
    activeDraggables := some [0, 1, 2]
    itemPositions := [⟨0, rectA, ⟨0, 0⟩⟩, ⟨1, rectB, ⟨0, 0⟩⟩, ⟨2, rectC, ⟨0, 0⟩⟩]
    clientRect := rectContainer }

/-- Environment for the scenario: the DOM measures the three members at
their row rectangles, only the entering item `5` is registered as dragged,
the hit test yields element `7`, a descendant of container element `9`. -/
def envABC : GridEnv :=
  { measureRoot := fun d => if d = 0 then rectA else if d = 1 then rectB else rectC
    measurePlaceholder := fun d => if d = 0 then rectA else if d = 1 then rectB else rectC
    isDraggingReg := fun d => d == 5
    ownRect := rectContainer
    elementFromPoint := fun _ _ => some 7
    containerElement := 9
    containsDesc := fun _ e => e == 7
    enterPredicate := fun _ => true }

/-- A container at rest (no gesture yet) over the row `[a, b, c]` into
which a foreign item can enter. -/
def gridABCAtRest : GridState :=
  { gridABC with isDragging := false, activeDraggables := none, itemPositions := [] }

/-- What claim C1 asserts of `enter`: the item is spliced into the active
working list, positions are re-cached, exactly one `entered` event is
emitted with the container, the item and its resulting index; the
origin-index branch restores the declared order when sorting is disabled
and the item is a declared member; otherwise the insertion index is the
pointer-containment index, the entry found there geometrically contains
the pointer, and a miss appends the item at the end. -/
def C1Prop (env : GridEnv) (s : GridState) (item : Nat) (px py : ℚ) : Prop :=
  (item ∈ activeOf (enter env s item px py).1) ∧
  ((enter env s item px py).1.itemPositions =
    cacheItemPositions env (activeOf (enter env s item px py).1)) ∧
  ((enter env s item px py).2 =
    [GridEvent.beforeStarted s.containerId,
      GridEvent.entered s.containerId item
        (getItemIndex (enter env s item px py).1 item)]) ∧
  (s.sortingDisabled = true → item ∈ s.draggables →
    activeOf (enter env s item px py).1 = s.draggables) ∧
  (¬(s.sortingDisabled = true ∧ item ∈ s.draggables) →
    enterNewIndex (start env s).1 item px py =
      getItemIndexFromPointerPosition (start env s).1 item px py none) ∧
  (item ∉ s.draggables → ∀ k : Nat,
    getItemIndexFromPointerPosition (start env s).1 item px py none = (k : Int) →
    activeOf (enter env s item px py).1 = jsSpliceInsert s.draggables (k : Int) item ∧
    ∃ entry, (cacheItemPositions env s.draggables).get? k = some entry ∧
      entry.drag ≠ item ∧
      px ≥ (⌊entry.clientRect.left⌋ : ℚ) ∧ px ≤ (⌊entry.clientRect.right⌋ : ℚ) ∧
      py ≥ (⌊entry.clientRect.top⌋ : ℚ) ∧ py ≤ (⌊entry.clientRect.bottom⌋ : ℚ)) ∧
  (enterNewIndex (start env s).1 item px py = -1 →
    (activeOf (enter env s item px py).1).getLast? = some item)

/-- What the amended claim C2 asserts of `_sortItem` on its success path:
exactly one `sorted` event is emitted, whose `previousIndex` field carries
the client rectangle cached at the pointer-derived new index and whose
`currentIndex` field carries the rectangle cached at the dragged item's
current index, while the cache order is the `moveItemInArray` shuffle. -/
def C2Prop (s : GridState) (item : Nat) (px py : ℚ) (d : Pt) : Prop :=
  ∀ currentEntry siblingAtNewPosition : CachedGridItemPosition,
    s.sortingDisabled = false →
    isPointerNearDropContainer s px py = true →
    ¬(getItemIndexFromPointerPosition s item px py (some d) = -1 ∧
      s.itemPositions.length > 0) →
    jsGet s.itemPositions (findIndex s.itemPositions fun p _ _ => p.drag == item) =
      some currentEntry →
    jsGet s.itemPositions (getItemIndexFromPointerPosition s item px py (some d)) =
      some siblingAtNewPosition →
    ∃ s', sortItem s item px py d = Except.ok (s',
        [GridEvent.sortedEvent s.containerId siblingAtNewPosition.clientRect
          currentEntry.clientRect item]) ∧
      s'.itemPositions.map (·.drag) =
        (moveItemInArray s.itemPositions
          (findIndex s.itemPositions fun p _ _ => p.drag == item)
          (getItemIndexFromPointerPosition s item px py (some d))).map (·.drag)

/-- What claim C3 asserts of `_canReceive`: true exactly when the
enter-predicate accepts, the point is inside the cached rectangle, and the
hit test yields the container element or a descendant; in particular false
under a rejecting predicate and false (without raising) under an empty hit
test. -/
def C3Prop (env : GridEnv) (s : GridState) (item : Nat) (x y : ℚ) : Prop :=
  (canReceive env s item x y = true ↔
    (env.enterPredicate item = true ∧ isInsideClientRect s.clientRect x y = true ∧
      ∃ e, env.elementFromPoint x y = some e ∧
        (e = env.containerElement ∨ env.containsDesc env.containerElement e = true))) ∧
  (env.enterPredicate item = false → canReceive env s item x y = false) ∧
  (env.elementFromPoint x y = none → canReceive env s item x y = false)

/-- What claim C4 asserts of `_sortItem`: the dragged item's current index
is a valid cache position, the pointer-derived new index is valid whenever
the early-return guard does not fire, and the call completes without an
out-of-bounds access. -/
def C4Prop (s : GridState) (item : Nat) (px py : ℚ) (d : Pt) : Prop :=
  (0 ≤ findIndex s.itemPositions fun p _ _ => p.drag == item) ∧
  ((findIndex s.itemPositions fun p _ _ => p.drag == item) <
    (s.itemPositions.length : Int)) ∧
  (¬(getItemIndexFromPointerPosition s item px py (some d) = -1 ∧
      s.itemPositions.length > 0) →
    0 ≤ getItemIndexFromPointerPosition s item px py (some d) ∧
    getItemIndexFromPointerPosition s item px py (some d) <
      (s.itemPositions.length : Int)) ∧
  (sortItem s item px py d).isOk = true

/-- What claim C5 asserts of `_sortItem`: a successful call only permutes
the cached items and never touches the active working list or the declared
members, and the call is a complete no-op (same state, no event) when
sorting is disabled or the pointer is outside the proximity band. -/
def C5Prop (s : GridState) (item : Nat) (px py : ℚ) (d : Pt) : Prop :=
  (∀ s' evs, sortItem s item px py d = Except.ok (s', evs) →
    (s'.itemPositions.map (·.drag)).Perm (s.itemPositions.map (·.drag)) ∧
    s'.activeDraggables = s.activeDraggables ∧
    s'.draggables = s.draggables) ∧
  (s.sortingDisabled = true ∨ isPointerNearDropContainer s px py = false →
    sortItem s item px py d = Except.ok (s, []))

/-- What claim C7 asserts of `registerDropContainer`: registering a fresh
container succeeds and adds it; registering it again without an
intervening removal, or registering an already-present one, throws. -/
def C7Prop (s : RegistryState) (c : Nat) : Prop :=
  (c ∉ s.dropInstances →
    registerDropContainer s c =
      Except.ok { s with dropInstances := c :: s.dropInstances } ∧
    ∀ s', registerDropContainer s c = Except.ok s' →
      ∃ msg, registerDropContainer s' c = Except.error msg) ∧
  (c ∈ s.dropInstances → ∃ msg, registerDropContainer s c = Except.error msg)

/-- What claim C8 asserts of the registry: after any call sequence the
document-level gesture listeners are bound iff some instance is actively
resizing, and any single call changes the bound listeners only on a
zero-to-one or one-to-zero transition of the active set. -/
def C8Prop (ops : List RegOp) : Prop :=
  ((regRun ops).globalListeners ≠ [] ↔ (regRun ops).activeResizeInstances ≠ []) ∧
  ∀ op, (regStep (regRun ops) op).globalListeners ≠ (regRun ops).globalListeners →
    ((regRun ops).activeResizeInstances = [] ∧
      (regStep (regRun ops) op).activeResizeInstances ≠ []) ∨
    ((regRun ops).activeResizeInstances ≠ [] ∧
      (regStep (regRun ops) op).activeResizeInstances = [])

/-- What claim C10 asserts: a fresh `DropGridRef` has `sortingDisabled =
true`; under that flag `_sortItem` does nothing and `enter` computes the
origin index of a declared member; the `CdkDropGrid` directive's own
default is `false` and its `beforeStarted` sync overwrites the ref's flag
with the directive input. -/
def C10Prop : Prop :=
  (({} : GridState).sortingDisabled = true) ∧
  (∀ (s : GridState) (item : Nat) (px py : ℚ) (d : Pt), s.sortingDisabled = true →
    sortItem s item px py d = Except.ok (s, [])) ∧
  (∀ (s : GridState) (item : Nat) (px py : ℚ), s.sortingDisabled = true →
    item ∈ s.draggables →
    enterNewIndex s item px py = indexOfInt s.draggables item) ∧
  (({} : CdkDropGridState).sortingDisabledInput = false) ∧
  (∀ (g : CdkDropGridState) (ref : GridState),
    (syncInputsOnBeforeStarted g ref).sortingDisabled = g.sortingDisabledInput)

theorem findIndexFrom_spec {α : Type} (p : α → Nat → List α → Bool) (full : List α) :
    ∀ (l : List α) (i : Nat),
      findIndexFrom p full l i = -1 ∨
      ∃ k : Nat, findIndexFrom p full l i = ((i + k : Nat) : Int) ∧
        ∃ a, l.get? k = some a ∧ p a (i + k) full = true := by
  intro l
  induction l with
  | nil => intro i; exact Or.inl rfl
  | cons a rest ih =>
    intro i
    by_cases h : p a i full = true
    · right
      exact ⟨0, by simp [findIndexFrom, h], a, rfl, by simpa using h⟩
    · have h' : p a i full = false := by simpa using h
      rcases ih (i + 1) with h1 | ⟨k, hk, b, hb, hp⟩
      · left
        simp [findIndexFrom, h', h1]
      · right
        refine ⟨k + 1, ?_, b, by simpa using hb, ?_⟩
        · simp only [findIndexFrom, h', Bool.false_eq_true, if_false]
          rw [hk]
          omega
        · have e : i + 1 + k = i + (k + 1) := by omega
          rwa [e] at hp

theorem findIndexFrom_neg_one {α : Type} (q : α → Bool) (full : List α) :
    ∀ (l : List α) (i : Nat),
      findIndexFrom (fun a _ _ => q a) full l i = -1 → ∀ a ∈ l, q a = false := by
  intro l
  induction l with
  | nil => intro i _ a ha; cases ha
  | cons b rest ih =>
    intro i h a ha
    by_cases hq : q b = true
    · exfalso
      simp only [findIndexFrom, hq, if_true] at h
      omega
    · rcases List.mem_cons.mp ha with rfl | ha
      · simpa using hq
      · refine ih (i + 1) ?_ a ha
        simpa [findIndexFrom, hq] using h

theorem findIndex_spec {α : Type} (l : List α) (p : α → Nat → List α → Bool) :
    findIndex l p = -1 ∨
    ∃ k : Nat, findIndex l p = (k : Int) ∧ k < l.length ∧
      ∃ a, l.get? k = some a ∧ p a k l = true := by
  rcases findIndexFrom_spec p l l 0 with h | ⟨k, hk, a, ha, hp⟩
  · exact Or.inl h
  · right
    refine ⟨k, by simpa using hk, ?_, a, ha, by simpa using hp⟩
    exact (List.get?_eq_some.mp ha).1

theorem findIndex_neg_one {α : Type} {l : List α} {q : α → Bool}
    (h : findIndex l (fun a _ _ => q a) = -1) : ∀ a ∈ l, q a = false :=
  findIndexFrom_neg_one q l l 0 h

theorem findIndex_nonneg_of_exists {α : Type} {l : List α} {q : α → Bool}
    (h : ∃ a ∈ l, q a = true) :
    ∃ k : Nat, findIndex l (fun a _ _ => q a) = (k : Int) ∧ k < l.length ∧
      ∃ a, l.get? k = some a ∧ q a = true := by
  rcases findIndex_spec l (fun a _ _ => q a) with hneg | ⟨k, hk, hkl, a, ha, hp⟩
  · rcases h with ⟨a, hmem, hq⟩
    rw [findIndex_neg_one hneg a hmem] at hq
    cases hq
  · exact ⟨k, hk, hkl, a, ha, hp⟩

theorem indexOfInt_of_mem {l : List Nat} {a : Nat} (h : a ∈ l) :
    ∃ k : Nat, indexOfInt l a = (k : Int) ∧ k < l.length ∧ l.get? k = some a := by
  have : ∃ b ∈ l, (b == a) = true := ⟨a, h, by simp⟩
  rcases findIndex_nonneg_of_exists this with ⟨k, hk, hkl, b, hb, hq⟩
  have : b = a := by simpa using hq
  exact ⟨k, hk, hkl, this ▸ hb⟩

theorem indexOfInt_of_not_mem {l : List Nat} {a : Nat} (h : a ∉ l) :
    indexOfInt l a = -1 := by
  rcases findIndex_spec l (fun b _ _ => b == a) with hneg | ⟨k, hk, hkl, b, hb, hq⟩
  · exact hneg
  · exfalso
    have hba : b = a := by simpa using hq
    subst hba
    exact h (List.get?_mem hb)

theorem jsGet_natCast {α : Type} (l : List α) (k : Nat) :
    jsGet l (k : Int) = l.get? k := by
  simp [jsGet]

theorem jsGet_neg_one {α : Type} (l : List α) : jsGet l (-1) = none := by
  simp [jsGet]

theorem insertIdx_perm_cons {α : Type} (a : α) :
    ∀ (l : List α) (n : Nat), n ≤ l.length → (l.insertIdx n a).Perm (a :: l) := by
  intro l
  induction l with
  | nil =>
    intro n hn
    have : n = 0 := by simpa using hn
    subst this
    simp
  | cons b rest ih =>
    intro n hn
    cases n with
    | zero => simp
    | succ m =>
      rw [List.insertIdx_succ_cons]
      exact ((ih m (by simpa using hn)).cons b).trans (List.Perm.swap a b rest)

theorem perm_cons_eraseIdx {α : Type} {a : α} :
    ∀ (l : List α) (n : Nat), l.get? n = some a → l.Perm (a :: l.eraseIdx n) := by
  intro l
  induction l with
  | nil => intro n h; simp at h
  | cons b rest ih =>
    intro n h
    cases n with
    | zero =>
      simp only [List.get?] at h
      cases h
      simp [List.eraseIdx]
    | succ m =>
      simp only [List.get?] at h
      refine ((ih m h).cons b).trans ?_
      rw [List.eraseIdx_cons_succ]
      exact List.Perm.swap a b _

theorem eraseIdx_insertIdx_self {α : Type} {a : α} :
    ∀ (l : List α) (n : Nat), l.get? n = some a → (l.eraseIdx n).insertIdx n a = l := by
  intro l
  induction l with
  | nil => intro n h; simp at h
  | cons b rest ih =>
    intro n h
    cases n with
    | zero =>
      simp only [List.get?] at h
      cases h
      simp [List.eraseIdx]
    | succ m =>
      simp only [List.get?] at h
      rw [List.eraseIdx_cons_succ, List.insertIdx_succ_cons, ih m h]

theorem eraseIdx_last_append {α : Type} {a : α} :
    ∀ (l : List α) (n : Nat), l.get? n = some a → n + 1 = l.length →
      l.eraseIdx n ++ [a] = l := by
  intro l
  induction l with
  | nil => intro n h _; simp at h
  | cons b rest ih =>
    intro n h hlen
    cases n with
    | zero =>
      simp only [List.get?] at h
      cases h
      have : rest = [] := by
        simpa using List.length_eq_zero.mp (by simpa using hlen.symm)
      subst this
      simp [List.eraseIdx]
    | succ m =>
      simp only [List.get?] at h
      rw [List.eraseIdx_cons_succ, List.cons_append, ih m h (by simpa using hlen)]

theorem moveItemInArray_perm {α : Type} (l : List α) (i j : Int) :
    (moveItemInArray l i j).Perm l := by
  unfold moveItemInArray
  by_cases heq :
      max 0 (min ((l.length : Int) - 1) i) = max 0 (min ((l.length : Int) - 1) j)
  · simp [heq]
  · simp only [heq, if_false]
    cases hg : jsGet l (max 0 (min ((l.length : Int) - 1) i)) with
    | none => exact List.Perm.refl l
    | some a =>
      have hfr : l.get? (max 0 (min ((l.length : Int) - 1) i)).toNat = some a := by
        unfold jsGet at hg
        split at hg
        · cases hg
        · exact hg
      have hfrlt : (max 0 (min ((l.length : Int) - 1) i)).toNat < l.length :=
        (List.get?_eq_some.mp hfr).1
      have hto : (max 0 (min ((l.length : Int) - 1) j)).toNat ≤
          (l.eraseIdx (max 0 (min ((l.length : Int) - 1) i)).toNat).length := by
        rw [List.length_eraseIdx]
        simp only [hfrlt, if_true]
        omega
      refine (insertIdx_perm_cons a _ _ hto).trans ?_
      exact (perm_cons_eraseIdx l _ hfr).symm

theorem map_mapIdx_proj {α β : Type} (g : α → β) :
    ∀ (l : List α) (f : Nat → α → α), (∀ i a, g (f i a) = g a) →
      (l.mapIdx f).map g = l.map g := by
  intro l
  induction l with
  | nil => intro f _; simp
  | cons a rest ih =>
    intro f h
    rw [List.mapIdx_cons]
    simp only [List.map_cons, h 0 a]
    rw [ih (fun i => f (i + 1)) (fun i a => h (i + 1) a)]

theorem cacheItemPositions_drags_perm (env : GridEnv) (active : List Nat) :
    ((cacheItemPositions env active).map (·.drag)).Perm active := by
  unfold cacheItemPositions
  refine ((List.mergeSort_perm _ _).map
    (fun p : CachedGridItemPosition => p.drag)).trans ?_
  rw [List.map_map]
  have he : ∀ a ∈ active,
      ((fun p : CachedGridItemPosition => p.drag) ∘ fun drag =>
        ({ drag := drag,
           clientRect := if env.isDraggingReg drag then env.measurePlaceholder drag
             else env.measureRoot drag,
           offset := ⟨0, 0⟩ } : CachedGridItemPosition)) a = id a := fun a _ => rfl
  rw [List.map_congr_left he, List.map_id]

theorem length_cacheItemPositions (env : GridEnv) (active : List Nat) :
    (cacheItemPositions env active).length = active.length := by
  unfold cacheItemPositions
  rw [List.length_mergeSort, List.length_map]

/-- C3: `_canReceive(item, x, y)` returns true exactly when the
enter-predicate accepts the item, the point lies inside the container's
cached bounding rectangle, and the document hit test at the point yields
the container's element or one of its descendants; it is false whenever
the predicate rejects, and false (raising nothing) when the hit test
yields no element. -/
theorem canReceive_spec (env : GridEnv) (s : GridState) (item : Nat) (x y : ℚ) :
    C3Prop env s item x y := by
  unfold C3Prop
  cases hp : env.enterPredicate item with
  | false => simp [canReceive, hp]
  | true =>
    cases hin : isInsideClientRect s.clientRect x y with
    | false => simp [canReceive, hp, hin]
    | true =>
      cases hel : env.elementFromPoint x y with
      | none => simp [canReceive, hp, hin, hel]
      | some e => simp [canReceive, hp, hin, hel]

/-- C3 witness: the property instantiated at the row scenario with the
pointer at `(1, 1)`. -/
theorem canReceive_spec_witness : C3Prop envABC gridABC 0 1 1 :=
  canReceive_spec envABC gridABC 0 1 1

/-- C6: calling `exit` on a fresh container — one in which no gesture was
ever started, so the item is not entered — reaches `_reset`, which
dereferences the uninitialized `_activeDraggables` field and throws,
contradicting the claimed safe no-op. -/
theorem exit_fresh_container_throws :
    exit ({} : GridState) 0 =
      Except.error "TypeError: this._activeDraggables is undefined" := rfl

/-- C7: `registerDropContainer` adds a not-currently-registered container
and succeeds; registering the same container again without an intervening
removal (or any already-registered one) raises a synchronous error. -/
theorem registerDropContainer_spec (s : RegistryState) (c : Nat) : C7Prop s c := by
  unfold C7Prop
  constructor
  · intro hne
    refine ⟨by simp [registerDropContainer, hne], ?_⟩
    intro s' hs'
    unfold registerDropContainer at hs'
    rw [if_pos hne] at hs'
    cases hs'
    exact ⟨"Drop instance with has already been registered.",
      by simp [registerDropContainer]⟩
  · intro hmem
    exact ⟨"Drop instance with has already been registered.",
      by simp [registerDropContainer, hmem]⟩

/-- C7 witness: container `4` registers into a registry holding `3`, and
the duplicate registration errors. -/
theorem registerDropContainer_spec_witness :
    C7Prop { dropInstances := [3] } 4 :=
  registerDropContainer_spec { dropInstances := [3] } 4

/-- C9: the `dispose()` of the `DropGridRef` variant in
`containers/drop-grid-ref.ts` has an empty body: on a live container (all
subjects open, instance registered) it completes none of the five
notification streams and leaves the container registered, contradicting
the claim; the full implementation's `dispose()` does complete all five
and unregisters. -/
theorem dispose_stub_noop :
    disposeStub ({} : DisposeState) = ({} : DisposeState) ∧
    (disposeStub ({} : DisposeState)).beforeStartedCompleted = false ∧
    (disposeStub ({} : DisposeState)).enteredCompleted = false ∧
    (disposeStub ({} : DisposeState)).exitedCompleted = false ∧
    (disposeStub ({} : DisposeState)).droppedCompleted = false ∧
    (disposeStub ({} : DisposeState)).sortedCompleted = false ∧
    (disposeStub ({} : DisposeState)).registered = true ∧
    (disposeFull ({} : DisposeState)).beforeStartedCompleted = true ∧
    (disposeFull ({} : DisposeState)).enteredCompleted = true ∧
    (disposeFull ({} : DisposeState)).exitedCompleted = true ∧
    (disposeFull ({} : DisposeState)).droppedCompleted = true ∧
    (disposeFull ({} : DisposeState)).sortedCompleted = true ∧
    (disposeFull ({} : DisposeState)).registered = false := by
  refine ⟨rfl, rfl, rfl, rfl, rfl, rfl, rfl, rfl, rfl, rfl, rfl, rfl, rfl⟩

/-- C10: a fresh `DropGridRef` has `sortingDisabled = true`; while the
flag is set, `_sortItem` returns without reordering and `enter` resolves a
declared member to its origin index; the `CdkDropGrid` directive defaults
its own input to `false` and its `beforeStarted` sync overwrites the ref's
flag with that input. -/
theorem sortingDisabled_defaults : C10Prop := by
  unfold C10Prop
  refine ⟨rfl, ?_, ?_, rfl, fun g ref => rfl⟩
  · intro s item px py d h
    unfold sortItem
    simp [h]
  · intro s item px py h hmem
    unfold enterNewIndex
    rcases indexOfInt_of_mem hmem with ⟨k, hk, _, _⟩
    have hk1 : ((k : Int)) ≠ -1 := by omega
    simp [h, hk, hk1]

/-- C10 witness: the default-flag behaviour evaluated at the resting row
container: the fresh ref flag, the `_sortItem` no-op, the origin index of
member `1`, the directive default, and the gesture-start sync. -/
theorem sortingDisabled_defaults_witness :
    ({} : GridState).sortingDisabled = true ∧
    sortItem { gridABC with sortingDisabled := true } 0 16 5 ⟨1, 0⟩ =
      Except.ok ({ gridABC with sortingDisabled := true }, []) ∧
    enterNewIndex { gridABCAtRest with sortingDisabled := true } 1 16 5 = 1 ∧
    ({} : CdkDropGridState).sortingDisabledInput = false ∧
    (syncInputsOnBeforeStarted {} gridABC).sortingDisabled = false := by
  refine ⟨sortingDisabled_defaults.1, ?_, ?_, sortingDisabled_defaults.2.2.2.1, ?_⟩
  · exact sortingDisabled_defaults.2.1 _ 0 16 5 ⟨1, 0⟩ rfl
  · have := sortingDisabled_defaults.2.2.1
      { gridABCAtRest with sortingDisabled := true } 1 16 5 rfl (by decide)
    rw [this]
    decide
  · exact sortingDisabled_defaults.2.2.2.2 {} gridABC

theorem sortedCachePositions_drags (item : Nat)
    (oldOrder movedSiblings : List CachedGridItemPosition) (io so : Pt) :
    (sortedCachePositions item oldOrder movedSiblings io so).map (fun p => p.drag) =
      movedSiblings.map (fun p => p.drag) :=
  map_mapIdx_proj _ movedSiblings _ (fun _ _ => by split <;> rfl)

theorem near_gridABC : isPointerNearDropContainer gridABC 16 5 = true := by
  simp only [isPointerNearDropContainer, gridABC, rectContainer,
    DROP_PROXIMITY_THRESHOLD, Bool.and_eq_true, decide_eq_true_eq]
  norm_num

/-- C2 counterexample data: in the row scenario, dragging `a = 0` to
pointer `(16, 5)` (inside `b`'s rectangle, past its midpoint) reorders the
cache to `[b, a, c]` and emits one `sorted` event — but the event's
`previousIndex` field carries `b`'s client rectangle (the position the
item moved *to*) rather than the index (or position) the item occupied
before, which was index `0` with rectangle `rectA`. -/
theorem sorted_event_payload_crossed :
    (sortItem gridABC 0 16 5 ⟨1, 0⟩).map (fun r => r.2) =
      Except.ok [GridEvent.sortedEvent 0 rectB rectA 0] ∧
    gridABC.itemPositions.map (fun p => p.drag) = [0, 1, 2] ∧
    gridABC.itemPositions.get? 0 = some ⟨0, rectA, ⟨0, 0⟩⟩ ∧
    (sortItem gridABC 0 16 5 ⟨1, 0⟩).map (fun r => r.1.itemPositions.map fun p => p.drag) =
      Except.ok [1, 0, 2] ∧
    rectB ≠ rectA := by
  refine ⟨?_, by decide, by decide, ?_, by decide⟩
  · simp only [sortItem, near_gridABC]
    rfl
  · simp only [sortItem, near_gridABC]
    rfl

/-- C2 (amended): on the path where `_sortItem` actually reorders, exactly
one `sorted` event is emitted; its `previousIndex` field carries the
client rectangle cached at the pointer-derived *new* index and its
`currentIndex` field the rectangle cached at the item's *current* index
(client rectangles, crossed relative to the field names — not the numeric
previous/current indices), and the cache order is the `moveItemInArray`
shuffle of current index to new index. -/
theorem sortItem_sorted_event (s : GridState) (item : Nat) (px py : ℚ) (d : Pt) :
    C2Prop s item px py d := by
  unfold C2Prop
  intro currentEntry siblingAtNewPosition hsort hnear hguard hcur hnew
  simp only [sortItem]
  have hc : (s.sortingDisabled || !isPointerNearDropContainer s px py) = false := by
    simp [hsort, hnear]
  rw [hc]
  simp only [Bool.false_eq_true, if_false]
  rw [if_neg hguard, hcur, hnew]
  exact ⟨_, rfl, (sortedCachePositions_drags _ _ _ _ _)⟩

/-- C2 witness: the amended property instantiated at the row scenario
(`a` dragged into `b`'s rectangle). -/
theorem sortItem_sorted_event_witness : C2Prop gridABC 0 16 5 ⟨1, 0⟩ :=
  sortItem_sorted_event gridABC 0 16 5 ⟨1, 0⟩

/-- C5: `_sortItem` never changes membership: a successful call leaves the
multiset of cached drag items unchanged (it only permutes and offsets
them) and does not touch the active working list or the declared members;
when sorting is disabled or the pointer is outside the proximity band the
call returns the state unchanged and emits nothing. -/
theorem sortItem_preserves_items (s : GridState) (item : Nat) (px py : ℚ) (d : Pt) :
    C5Prop s item px py d := by
  unfold C5Prop
  constructor
  · intro s' evs h
    simp only [sortItem] at h
    by_cases h1 : (s.sortingDisabled || !isPointerNearDropContainer s px py) = true
    · rw [if_pos h1] at h
      rw [Except.ok.injEq, Prod.mk.injEq] at h
      obtain ⟨rfl, rfl⟩ := h
      exact ⟨List.Perm.refl _, rfl, rfl⟩
    · rw [if_neg h1] at h
      by_cases h2 : getItemIndexFromPointerPosition s item px py (some d) = -1 ∧
          s.itemPositions.length > 0
      · rw [if_pos h2] at h
        rw [Except.ok.injEq, Prod.mk.injEq] at h
        obtain ⟨rfl, rfl⟩ := h
        exact ⟨List.Perm.refl _, rfl, rfl⟩
      · rw [if_neg h2] at h
        cases hg1 : jsGet s.itemPositions
            (findIndex s.itemPositions fun p _ _ => p.drag == item) with
        | none =>
          rw [hg1] at h
          cases hg2 : jsGet s.itemPositions
              (getItemIndexFromPointerPosition s item px py (some d)) with
          | none => rw [hg2] at h; cases h
          | some sn => rw [hg2] at h; cases h
        | some ce =>
          rw [hg1] at h
          cases hg2 : jsGet s.itemPositions
              (getItemIndexFromPointerPosition s item px py (some d)) with
          | none => rw [hg2] at h; cases h
          | some sn =>
            rw [hg2] at h
            rw [Except.ok.injEq, Prod.mk.injEq] at h
            obtain ⟨rfl, rfl⟩ := h
            refine ⟨?_, rfl, rfl⟩
            exact List.Perm.trans
              (List.Perm.of_eq (sortedCachePositions_drags _ _ _ _ _))
              ((moveItemInArray_perm s.itemPositions _ _).map _)
  · intro hdisj
    have hc : (s.sortingDisabled || !isPointerNearDropContainer s px py) = true := by
      rcases hdisj with h | h <;> simp [h]
    simp only [sortItem]
    rw [if_pos hc]

/-- C5 witness: the property instantiated at the row scenario. -/
theorem sortItem_preserves_items_witness : C5Prop gridABC 0 16 5 ⟨1, 0⟩ :=
  sortItem_preserves_items gridABC 0 16 5 ⟨1, 0⟩

/-- C4: when sorting is enabled, the pointer is inside the proximity band
and the dragged item is present in the position cache (as it is during any
gesture), the dragged item's current index is a valid cache position, the
pointer-derived new index is valid whenever the early-return guard does
not fire, and the call completes without an out-of-bounds access. -/
theorem sortItem_index_in_bounds (s : GridState) (item : Nat) (px py : ℚ) (d : Pt)
    (hsort : s.sortingDisabled = false)
    (hnear : isPointerNearDropContainer s px py = true)
    (hmem : item ∈ s.itemPositions.map fun p => p.drag) :
    C4Prop s item px py d := by
  unfold C4Prop
  have hex : ∃ p ∈ s.itemPositions, (p.drag == item) = true := by
    rcases List.mem_map.mp hmem with ⟨p, hp, he⟩
    exact ⟨p, hp, by simp [he]⟩
  rcases findIndex_nonneg_of_exists hex with ⟨k, hk, hkl, p, hgp, _⟩
  have hlen : 0 < s.itemPositions.length := by
    rcases hex with ⟨q, hq, _⟩
    exact List.length_pos.mpr (List.ne_nil_of_mem hq)
  have hnb : ¬(getItemIndexFromPointerPosition s item px py (some d) = -1 ∧
        s.itemPositions.length > 0) →
      0 ≤ getItemIndexFromPointerPosition s item px py (some d) ∧
      getItemIndexFromPointerPosition s item px py (some d) <
        (s.itemPositions.length : Int) := by
    intro hguard
    rcases findIndex_spec s.itemPositions (pointerHitPredicate s item px py (some d)) with
      hneg | ⟨m, hm, hml, _⟩
    · exact absurd ⟨hneg, hlen⟩ hguard
    · unfold getItemIndexFromPointerPosition
      rw [hm]
      omega
  refine ⟨by rw [hk]; omega, by rw [hk]; omega, hnb, ?_⟩
  simp only [sortItem]
  have hc : (s.sortingDisabled || !isPointerNearDropContainer s px py) = false := by
    simp [hsort, hnear]
  rw [hc]
  simp only [Bool.false_eq_true, if_false]
  by_cases hg : getItemIndexFromPointerPosition s item px py (some d) = -1 ∧
      s.itemPositions.length > 0
  · rw [if_pos hg]
    rfl
  · rw [if_neg hg]
    rcases hnb hg with ⟨hn0, hnl⟩
    have h1 : jsGet s.itemPositions
        (findIndex s.itemPositions fun p _ _ => p.drag == item) = some p := by
      rw [hk, jsGet_natCast, hgp]
    obtain ⟨m, hmeq⟩ : ∃ m : Nat,
        getItemIndexFromPointerPosition s item px py (some d) = (m : Int) :=
      ⟨(getItemIndexFromPointerPosition s item px py (some d)).toNat, by omega⟩
    have hmlt : m < s.itemPositions.length := by omega
    have h2 : jsGet s.itemPositions
        (getItemIndexFromPointerPosition s item px py (some d)) =
        some (s.itemPositions.get ⟨m, hmlt⟩) := by
      rw [hmeq, jsGet_natCast]
      exact List.get?_eq_get hmlt
    rw [h1, h2]
    rfl

/-- C4 witness: the bounds property at the row scenario (sorting enabled,
pointer inside `b`, dragged item `0` cached). -/
theorem sortItem_index_in_bounds_witness : C4Prop gridABC 0 16 5 ⟨1, 0⟩ :=
  sortItem_index_in_bounds gridABC 0 16 5 ⟨1, 0⟩ rfl near_gridABC (by decide)

theorem mapSetKey_ne_nil (m : List String) (k : String) : mapSetKey m k ≠ [] := by
  by_cases hk : k ∈ m
  · simp only [mapSetKey, hk, if_true]
    intro h
    subst h
    cases hk
  · simp [mapSetKey, hk]

theorem stopResizing_inv (s : RegistryState)
    (h : s.globalListeners ≠ [] ↔ s.activeResizeInstances ≠ []) (r : Nat) :
    (stopResizing s r).globalListeners ≠ [] ↔
      (stopResizing s r).activeResizeInstances ≠ [] := by
  simp only [stopResizing]
  by_cases he : (s.activeResizeInstances.erase r).length = 0
  · have her : s.activeResizeInstances.erase r = [] := List.length_eq_zero.mp he
    simp [he, her]
  · have h1 : s.activeResizeInstances.erase r ≠ [] := fun hh => he (by simp [hh])
    have h2 : s.activeResizeInstances ≠ [] := by
      intro hh
      rw [hh] at h1
      simp at h1
    simp only [he, if_false]
    exact ⟨fun _ => h1, fun _ => h.mpr h2⟩

theorem startResizing_inv (s : RegistryState)
    (h : s.globalListeners ≠ [] ↔ s.activeResizeInstances ≠ []) (r : Nat)
    (touch : Bool) :
    (startResizing s r touch).globalListeners ≠ [] ↔
      (startResizing s r touch).activeResizeInstances ≠ [] := by
  simp only [startResizing]
  by_cases hm : r ∈ s.activeResizeInstances
  · simpa [hm] using h
  · simp only [hm, if_false]
    by_cases hl : (r :: s.activeResizeInstances).length = 1
    · simp only [hl, if_true]
      exact ⟨fun _ => by simp, fun _ => mapSetKey_ne_nil _ _⟩
    · have hact : s.activeResizeInstances ≠ [] := by
        intro hh
        rw [hh] at hl
        simp at hl
      simp only [hl, if_false]
      exact ⟨fun _ => by simp, fun _ => h.mpr hact⟩

theorem regStep_inv (s : RegistryState)
    (h : s.globalListeners ≠ [] ↔ s.activeResizeInstances ≠ []) (op : RegOp) :
    (regStep s op).globalListeners ≠ [] ↔ (regStep s op).activeResizeInstances ≠ [] := by
  cases op with
  | startR r touch => exact startResizing_inv s h r touch
  | stopR r => exact stopResizing_inv s h r
  | removeR r => exact stopResizing_inv { s with resizeInstances := s.resizeInstances.erase r } h r

theorem regRun_invariant (ops : List RegOp) :
    (regRun ops).globalListeners ≠ [] ↔ (regRun ops).activeResizeInstances ≠ [] := by
  suffices hgen : ∀ s : RegistryState,
      (s.globalListeners ≠ [] ↔ s.activeResizeInstances ≠ []) →
      ((ops.foldl regStep s).globalListeners ≠ [] ↔
        (ops.foldl regStep s).activeResizeInstances ≠ []) by
    exact hgen {} (by simp)
  induction ops with
  | nil => intro s h; simpa using h
  | cons op rest ih => intro s h; exact ih (regStep s op) (regStep_inv s h op)

theorem stopResizing_listener_change (s : RegistryState)
    (h : s.globalListeners ≠ [] ↔ s.activeResizeInstances ≠ []) (r : Nat)
    (hch : (stopResizing s r).globalListeners ≠ s.globalListeners) :
    (s.activeResizeInstances = [] ∧ (stopResizing s r).activeResizeInstances ≠ []) ∨
    (s.activeResizeInstances ≠ [] ∧ (stopResizing s r).activeResizeInstances = []) := by
  simp only [stopResizing] at hch ⊢
  by_cases he : (s.activeResizeInstances.erase r).length = 0
  · have her : s.activeResizeInstances.erase r = [] := List.length_eq_zero.mp he
    by_cases hsa : s.activeResizeInstances = []
    · exfalso
      apply hch
      have hl : s.globalListeners = [] := by
        by_contra hne
        exact absurd hsa (h.mp hne)
      simp [he, hl]
    · right
      exact ⟨hsa, by simp [he, her]⟩
  · exfalso
    apply hch
    simp [he]

theorem startResizing_listener_change (s : RegistryState) (r : Nat) (touch : Bool)
    (hch : (startResizing s r touch).globalListeners ≠ s.globalListeners) :
    (s.activeResizeInstances = [] ∧
      (startResizing s r touch).activeResizeInstances ≠ []) ∨
    (s.activeResizeInstances ≠ [] ∧
      (startResizing s r touch).activeResizeInstances = []) := by
  simp only [startResizing] at hch ⊢
  by_cases hm : r ∈ s.activeResizeInstances
  · rw [if_pos hm] at hch
    exact absurd rfl hch
  · by_cases hl : (r :: s.activeResizeInstances).length = 1
    · have hact : s.activeResizeInstances = [] := by simpa using hl
      left
      refine ⟨hact, ?_⟩
      simp [hm, hl]
    · have hact : s.activeResizeInstances ≠ [] := by
        intro hh
        rw [hh] at hl
        simp at hl
      exfalso
      apply hch
      simp [hm, hl, hact]

/-- C8: after any sequence of `startResizing` / `stopResizing` /
`removeResizeItem` calls the four document-level gesture listeners are
bound iff at least one instance is actively resizing, and a further call
changes the bound listeners only on a zero-to-one or one-to-zero
transition of the active set. -/
theorem globalListeners_iff_active (ops : List RegOp) : C8Prop ops := by
  refine ⟨regRun_invariant ops, ?_⟩
  intro op hch
  cases op with
  | startR r touch => exact startResizing_listener_change (regRun ops) r touch hch
  | stopR r => exact stopResizing_listener_change (regRun ops) (regRun_invariant ops) r hch
  | removeR r =>
    exact stopResizing_listener_change
      { regRun ops with resizeInstances := (regRun ops).resizeInstances.erase r }
      (regRun_invariant ops) r hch

/-- C8 witness: the property after the single call that starts resize `0`
with a mouse gesture. -/
theorem globalListeners_iff_active_witness : C8Prop [RegOp.startR 0 false] :=
  globalListeners_iff_active [RegOp.startR 0 false]

theorem mem_jsSpliceInsert {α : Type} (l : List α) (i : Int) (a : α) :
    a ∈ jsSpliceInsert l i a := by
  unfold jsSpliceInsert
  have hle : ((if i < 0 then max ((l.length : Int) + i) 0
      else min i (l.length : Int))).toNat ≤ l.length := by
    split <;> omega
  exact (insertIdx_perm_cons a l _ hle).mem_iff.mpr (List.mem_cons_self a l)

theorem mem_enterActive (env : GridEnv) (active : List Nat) (item : Nat) (n : Int) :
    item ∈ enterActive env active item n := by
  simp only [enterActive]
  cases hnpr : (if jsGet active n = some item then jsGet active (n + 1)
      else jsGet active n) with
  | none => simp [hnpr]
  | some ref =>
    cases hr : env.isDraggingReg ref with
    | true => simp [hr]
    | false =>
      simpa [hr] using mem_jsSpliceInsert
        (if indexOfInt active item > -1 then
          jsSpliceRemove active (indexOfInt active item) else active) n item

theorem enterActive_origin (env : GridEnv) (item : Nat) (active : List Nat)
    (hnd : active.Nodup) (hmem : item ∈ active)
    (hreg : ∀ d, env.isDraggingReg d = (d == item)) :
    enterActive env active item (indexOfInt active item) = active := by
  rcases indexOfInt_of_mem hmem with ⟨k, hk, hkl, hget⟩
  simp only [enterActive]
  rw [hk]
  have h1 : jsGet active (k : Int) = some item := by
    rw [jsGet_natCast]
    exact hget
  rw [h1, if_pos rfl, if_pos (by omega : (k : Int) > -1)]
  have hrem : jsSpliceRemove active (k : Int) = active.eraseIdx k := by
    simp [jsSpliceRemove]
  by_cases hk1 : k + 1 < active.length
  · obtain ⟨b, hb⟩ : ∃ b, active.get? (k + 1) = some b :=
      ⟨active.get ⟨k + 1, hk1⟩, List.get?_eq_get hk1⟩
    have h2 : jsGet active ((k : Int) + 1) = some b := by
      rw [show ((k : Int) + 1) = ((k + 1 : Nat) : Int) by omega, jsGet_natCast]
      exact hb
    rw [h2]
    have hbne : b ≠ item := by
      intro he
      subst he
      have : k = k + 1 := List.getElem?_inj hkl hnd (by
        rw [← List.get?_eq_getElem?, ← List.get?_eq_getElem?]
        exact hget.trans hb.symm)
      omega
    have hr : env.isDraggingReg b = false := by
      rw [hreg b]
      simp [hbne]
    simp only [hr, Bool.not_false, if_true]
    rw [hrem]
    unfold jsSpliceInsert
    have hmin : (if (k : Int) < 0 then
        max (((active.eraseIdx k).length : Int) + (k : Int)) 0
        else min (k : Int) ((active.eraseIdx k).length : Int)) = (k : Int) := by
      rw [List.length_eraseIdx]
      simp only [hkl, if_true]
      omega
    rw [hmin]
    show List.insertIdx ((k : Int)).toNat item (active.eraseIdx k) = active
    rw [Int.toNat_natCast]
    exact eraseIdx_insertIdx_self active k hget
  · have h2 : jsGet active ((k : Int) + 1) = none := by
      unfold jsGet
      rw [if_neg (by omega)]
      rw [show ((k : Int) + 1).toNat = k + 1 by omega]
      exact List.get?_eq_none.mpr (by omega)
    rw [h2]
    simp only []
    rw [hrem]
    exact eraseIdx_last_append active k hget (by omega)

theorem enterActive_insert_of_not_mem (env : GridEnv) (active : List Nat) (item : Nat)
    (k : Nat) (hmem : item ∉ active) (hk : k < active.length)
    (hreg : ∀ d, env.isDraggingReg d = (d == item)) :
    enterActive env active item (k : Int) = jsSpliceInsert active (k : Int) item := by
  simp only [enterActive]
  rw [indexOfInt_of_not_mem hmem]
  obtain ⟨b, hb⟩ : ∃ b, active.get? k = some b :=
    ⟨active.get ⟨k, hk⟩, List.get?_eq_get hk⟩
  have h1 : jsGet active (k : Int) = some b := by
    rw [jsGet_natCast]
    exact hb
  have hbne : b ≠ item := fun he => hmem (he ▸ List.get?_mem hb)
  rw [h1, if_neg (by simp [hbne]), if_neg (by omega : ¬((-1 : Int) > -1))]
  have hr : env.isDraggingReg b = false := by
    rw [hreg b]
    simp [hbne]
  simp only [hr, Bool.not_false, if_true]

theorem enterActive_last_of_neg (env : GridEnv) (active : List Nat) (item : Nat) :
    (enterActive env active item (-1)).getLast? = some item := by
  simp only [enterActive]
  rw [jsGet_neg_one, if_neg (by simp)]
  simp only []
  exact List.getLast?_concat _

theorem enterNewIndex_origin (s : GridState) (item : Nat) (px py : ℚ)
    (h : s.sortingDisabled = true) (hmem : item ∈ s.draggables) :
    enterNewIndex s item px py = indexOfInt s.draggables item := by
  unfold enterNewIndex
  rcases indexOfInt_of_mem hmem with ⟨k, hk, _, _⟩
  have hk1 : ((k : Int)) ≠ -1 := by omega
  simp [h, hk, hk1]

theorem enterNewIndex_pointer (s : GridState) (item : Nat) (px py : ℚ)
    (h : ¬(s.sortingDisabled = true ∧ item ∈ s.draggables)) :
    enterNewIndex s item px py =
      getItemIndexFromPointerPosition s item px py none := by
  unfold enterNewIndex
  by_cases hd : s.sortingDisabled = true
  · have hmem : item ∉ s.draggables := fun hm => h ⟨hd, hm⟩
    simp [hd, indexOfInt_of_not_mem hmem]
  · have hd' : s.sortingDisabled = false := by simpa using hd
    simp [hd']

theorem getItemIndexFromPointerPosition_hit (s' : GridState) (item : Nat)
    (px py : ℚ) (k : Nat)
    (hdrag : ∀ p ∈ s'.itemPositions, p.drag ≠ item)
    (hk : getItemIndexFromPointerPosition s' item px py none = (k : Int)) :
    ∃ entry, s'.itemPositions.get? k = some entry ∧ entry.drag ≠ item ∧
      px ≥ (⌊entry.clientRect.left⌋ : ℚ) ∧ px ≤ (⌊entry.clientRect.right⌋ : ℚ) ∧
      py ≥ (⌊entry.clientRect.top⌋ : ℚ) ∧ py ≤ (⌊entry.clientRect.bottom⌋ : ℚ) := by
  unfold getItemIndexFromPointerPosition at hk
  rcases findIndex_spec s'.itemPositions (pointerHitPredicate s' item px py none) with
    hneg | ⟨m, hm, hml, a, ha, hp⟩
  · rw [hneg] at hk
    omega
  · rw [hm] at hk
    have hmk : m = k := by omega
    subst hmk
    have hane : a.drag ≠ item := hdrag a (List.get?_mem ha)
    refine ⟨a, ha, hane, ?_⟩
    unfold pointerHitPredicate at hp
    rw [if_neg (by simp [hane])] at hp
    simp only [if_neg] at hp
    simp at hp
    exact ⟨hp.1, hp.2.1, hp.2.2.1, hp.2.2.2⟩

/-- C1: `enter(item, x, y)` always splices the item into the active
working list, re-caches positions and emits exactly one `entered` event
with the container, the item and its resulting index; with sorting
disabled and the item a declared member the declared order is restored
(origin index); otherwise the insertion index is the pointer-containment
index over the fresh cache, whose hit entry geometrically contains the
pointer, and a containment miss appends the item at the end. -/
theorem enter_spec (env : GridEnv) (s : GridState) (item : Nat) (px py : ℚ)
    (hnd : s.draggables.Nodup)
    (hreg : ∀ d, env.isDraggingReg d = (d == item)) :
    C1Prop env s item px py := by
  unfold C1Prop
  refine ⟨mem_enterActive env s.draggables item _, rfl, rfl, ?_, ?_, ?_, ?_⟩
  · intro hsort hmem
    show enterActive env s.draggables item
      (enterNewIndex (start env s).1 item px py) = s.draggables
    rw [enterNewIndex_origin (start env s).1 item px py hsort hmem]
    exact enterActive_origin env item s.draggables hnd hmem hreg
  · intro h
    exact enterNewIndex_pointer (start env s).1 item px py h
  · intro hmem k hk
    have hdrag : ∀ p ∈ cacheItemPositions env s.draggables, p.drag ≠ item := by
      intro p hp he
      apply hmem
      have hmm : p.drag ∈ (cacheItemPositions env s.draggables).map fun q => q.drag :=
        List.mem_map_of_mem _ hp
      exact he ▸ (cacheItemPositions_drags_perm env s.draggables).mem_iff.mp hmm
    have hhit := getItemIndexFromPointerPosition_hit (start env s).1 item px py k
      hdrag hk
    rcases hhit with ⟨entry, hent, hne, hcont⟩
    have hklen : k < s.draggables.length := by
      have := (List.get?_eq_some.mp hent).1
      rwa [show ((start env s).1.itemPositions.length) =
        (cacheItemPositions env s.draggables).length from rfl,
        length_cacheItemPositions] at this
    constructor
    · show enterActive env s.draggables item
        (enterNewIndex (start env s).1 item px py) =
        jsSpliceInsert s.draggables (k : Int) item
      rw [enterNewIndex_pointer (start env s).1 item px py
        (fun hh => hmem hh.2), hk]
      exact enterActive_insert_of_not_mem env s.draggables item k hmem hklen hreg
    · exact ⟨entry, hent, hne, hcont⟩
  · intro hneg
    show (enterActive env s.draggables item
      (enterNewIndex (start env s).1 item px py)).getLast? = some item
    rw [hneg]
    exact enterActive_last_of_neg env s.draggables item

/-- C1 witness: item `5` entering the resting row container at `(16, 5)`
(inside `b`'s rectangle). -/
theorem enter_spec_witness : C1Prop envABC gridABCAtRest 5 16 5 :=
  enter_spec envABC gridABCAtRest 5 16 5 (by decide) (fun d => rfl)

end DndGrid
